import Mathlib

/-!
Verification of the Fertilizer backend (FastAPI + Postgres) against its
specification. The definitions below are a shallow embedding of the
handlers in src/app/api and src/app/core: monetary amounts and quantities
(floats in the schema) are modelled as rationals, table rows as structures,
tables as maps from keys to optional rows, and fallible handlers as
Except-valued functions. SQL statements are embedded by their row-level
effect; the enclosing transaction of each handler is one Lean function.
-/

/-- Payment status enum from app/models/models.py (class PaymentStatus).
The stored string values are "paid", "pending", "partial", "overdue";
the constructor partialPayment stands for the value "partial". -/
inductive PaymentStatus where
  | paid
  | pending
  | partialPayment
  | overdue
deriving DecidableEq, Repr

/-- Application error taxonomy from app/core/exceptions.py:
NotFoundError (404), BadRequestError (400), DatabaseError (500). -/
inductive AppError where
  | notFound (message : String)
  | badRequest (message : String)
  | databaseError (message : String)
deriving DecidableEq, Repr

/-- The payment-relevant columns of a sales or purchases header row
(total_amount, paid_amount, payment_status), per the schema used in
app/api/sales.py and app/api/purchases.py. -/
structure PayHeader where
  total_amount : ℚ
  paid_amount : ℚ
  payment_status : PaymentStatus
deriving DecidableEq, Repr

namespace Sales

/-- Core of update_payment in app/api/sales.py (lines 184-203): reads
total_amount and paid_amount, adds the increment, caps at total_amount
when the sum reaches it, and recomputes payment_status by the branch
order of the source (paid, then partial, then pending). -/
def update_payment (h : PayHeader) (paid_amount : ℚ) : PayHeader :=
  let new_paid := h.paid_amount + paid_amount
  if new_paid ≥ h.total_amount then
    { h with paid_amount := h.total_amount, payment_status := PaymentStatus.paid }
  else if new_paid > 0 then
    { h with paid_amount := new_paid, payment_status := PaymentStatus.partialPayment }
  else
    { h with paid_amount := new_paid, payment_status := PaymentStatus.pending }

/-- Embeds update_payment of app/api/sales.py (lines 179-206) at the table
level: looks up the sale by id, fails with NotFoundError when absent,
otherwise writes the recomputed header back. -/
def update_payment_api (tbl : Nat → Option PayHeader) (sale_id : Nat) (paid_amount : ℚ) :
    Except AppError (Nat → Option PayHeader) :=
  match tbl sale_id with
  | none => Except.error (AppError.notFound "Sale not found")
  | some h =>
      Except.ok (fun i => if i = sale_id then some (update_payment h paid_amount) else tbl i)

end Sales

namespace Purchases

/-- Core of update_payment in app/api/purchases.py (lines 185-199);
the code is identical to the sales version. -/
def update_payment (h : PayHeader) (paid_amount : ℚ) : PayHeader :=
  let new_paid := h.paid_amount + paid_amount
  if new_paid ≥ h.total_amount then
    { h with paid_amount := h.total_amount, payment_status := PaymentStatus.paid }
  else if new_paid > 0 then
    { h with paid_amount := new_paid, payment_status := PaymentStatus.partialPayment }
  else
    { h with paid_amount := new_paid, payment_status := PaymentStatus.pending }

/-- Embeds update_payment of app/api/purchases.py (lines 175-201) at the
table level, failing with NotFoundError when the purchase is absent. -/
def update_payment_api (tbl : Nat → Option PayHeader) (purchase_id : Nat) (paid_amount : ℚ) :
    Except AppError (Nat → Option PayHeader) :=
  match tbl purchase_id with
  | none => Except.error (AppError.notFound "Purchase not found")
  | some h =>
      Except.ok (fun i => if i = purchase_id then some (update_payment h paid_amount) else tbl i)

end Purchases

theorem purchases_update_payment_eq_sales :
    Purchases.update_payment = Sales.update_payment := rfl

theorem update_payment_total_eq (h : PayHeader) (i : ℚ) :
    (Sales.update_payment h i).total_amount = h.total_amount := by
  dsimp only [Sales.update_payment]
  split
  · rfl
  · split <;> rfl

theorem update_payment_paid_le_total (h : PayHeader) (i : ℚ) :
    (Sales.update_payment h i).paid_amount ≤ h.total_amount := by
  dsimp only [Sales.update_payment]
  split
  · exact le_rfl
  · rename_i hnot
    push_neg at hnot
    split
    · exact le_of_lt hnot
    · exact le_of_lt hnot

theorem update_payment_paid_eq_min (h : PayHeader) (i : ℚ) :
    (Sales.update_payment h i).paid_amount = min h.total_amount (h.paid_amount + i) := by
  dsimp only [Sales.update_payment]
  split
  · rename_i hge
    exact (min_eq_left hge).symm
  · rename_i hnot
    push_neg at hnot
    split
    · exact (min_eq_right (le_of_lt hnot)).symm
    · exact (min_eq_right (le_of_lt hnot)).symm

theorem update_payment_mono (h : PayHeader) (i : ℚ)
    (hle : h.paid_amount ≤ h.total_amount) (hi : 0 ≤ i) :
    h.paid_amount ≤ (Sales.update_payment h i).paid_amount := by
  dsimp only [Sales.update_payment]
  split
  · exact hle
  · split
    · dsimp only
      linarith
    · dsimp only
      linarith

theorem foldl_update_payment_total (l : List ℚ) (h : PayHeader) :
    (l.foldl Sales.update_payment h).total_amount = h.total_amount := by
  induction l generalizing h with
  | nil => rfl
  | cons a l ih =>
      simp only [List.foldl_cons]
      rw [ih, update_payment_total_eq]

theorem foldl_update_payment_le_total (l : List ℚ) (h : PayHeader)
    (hle : h.paid_amount ≤ h.total_amount) :
    (l.foldl Sales.update_payment h).paid_amount ≤ h.total_amount := by
  induction l generalizing h with
  | nil => exact hle
  | cons a l ih =>
      simp only [List.foldl_cons]
      have h1 : (Sales.update_payment h a).paid_amount ≤ (Sales.update_payment h a).total_amount := by
        rw [update_payment_total_eq]
        exact update_payment_paid_le_total h a
      have := ih (Sales.update_payment h a) h1
      rwa [update_payment_total_eq] at this

theorem update_payment_status_paid_iff (h : PayHeader) (i : ℚ) :
    (Sales.update_payment h i).payment_status = PaymentStatus.paid ↔
      h.total_amount ≤ h.paid_amount + i := by
  dsimp only [Sales.update_payment]
  split
  · rename_i hge
    simp [hge]
  · rename_i hnot
    split
    · simp [hnot]
    · simp [hnot]

theorem update_payment_status_partial_iff (h : PayHeader) (i : ℚ) :
    (Sales.update_payment h i).payment_status = PaymentStatus.partialPayment ↔
      (0 < h.paid_amount + i ∧ h.paid_amount + i < h.total_amount) := by
  dsimp only [Sales.update_payment]
  split
  · rename_i hge
    simp [not_lt.mpr hge]
  · rename_i hnot
    split
    · rename_i hpos
      simp [hpos, lt_of_not_ge hnot]
    · rename_i hnpos
      simp [hnpos]

theorem update_payment_status_pending_iff (h : PayHeader) (i : ℚ) :
    (Sales.update_payment h i).payment_status = PaymentStatus.pending ↔
      (h.paid_amount + i ≤ 0 ∧ h.paid_amount + i < h.total_amount) := by
  dsimp only [Sales.update_payment]
  split
  · rename_i hge
    simp [not_lt.mpr hge]
  · rename_i hnot
    split
    · rename_i hpos
      simp [not_le.mpr hpos]
    · rename_i hnpos
      simp [not_lt.mp hnpos, lt_of_not_ge hnot]

/-- C2 (amended): for any sale or purchase header whose paid_amount does not
exceed total_amount, and any sequence of non-negative payment increments, the
paid_amount never decreases from each update_payment call to the next, and
after every call paid_amount is at most total_amount. (The original claim,
quantified over all payment-update calls, fails because the handler accepts a
negative increment and stores the decreased amount; see the counterexample.) -/
theorem payment_updates_monotone_capped (h : PayHeader) (incs : List ℚ)
    (hle : h.paid_amount ≤ h.total_amount) (hnn : ∀ i ∈ incs, 0 ≤ i) (n : Nat) :
    (((incs.take n).foldl Sales.update_payment h).paid_amount ≤
        ((incs.take (n + 1)).foldl Sales.update_payment h).paid_amount ∧
      ((incs.take (n + 1)).foldl Sales.update_payment h).paid_amount ≤ h.total_amount) ∧
    (((incs.take n).foldl Purchases.update_payment h).paid_amount ≤
        ((incs.take (n + 1)).foldl Purchases.update_payment h).paid_amount ∧
      ((incs.take (n + 1)).foldl Purchases.update_payment h).paid_amount ≤ h.total_amount) := by
  have sales_half :
      (((incs.take n).foldl Sales.update_payment h).paid_amount ≤
        ((incs.take (n + 1)).foldl Sales.update_payment h).paid_amount ∧
      ((incs.take (n + 1)).foldl Sales.update_payment h).paid_amount ≤ h.total_amount) := by
    rw [List.take_succ, List.foldl_append]
    cases hget : incs[n]? with
    | none =>
        simp only [hget, Option.toList_none, List.foldl_nil]
        exact ⟨le_rfl, foldl_update_payment_le_total (incs.take n) h hle⟩
    | some i =>
        simp only [hget, Option.toList_some, List.foldl_cons, List.foldl_nil]
        have hmem : i ∈ incs := List.getElem?_mem hget
        have hst : ((incs.take n).foldl Sales.update_payment h).paid_amount ≤
            ((incs.take n).foldl Sales.update_payment h).total_amount := by
          rw [foldl_update_payment_total]
          exact foldl_update_payment_le_total (incs.take n) h hle
        refine ⟨update_payment_mono _ i hst (hnn i hmem), ?_⟩
        have := update_payment_paid_le_total ((incs.take n).foldl Sales.update_payment h) i
        rwa [foldl_update_payment_total] at this
  exact ⟨sales_half, by rw [purchases_update_payment_eq_sales]; exact sales_half⟩

/-- C2 counterexample: the payment handler accepts a negative increment and
decreases paid_amount: on a header with total 100 and paid 60, update_payment
with increment -50 stores paid_amount 10 < 60. This refutes both that
paid_amount never decreases across payment-update calls and that no
operation decreases paid_amount. -/
theorem payment_updates_monotone_capped_cex :
    (Sales.update_payment ⟨100, 60, PaymentStatus.partialPayment⟩ (-50)).paid_amount <
      (⟨100, 60, PaymentStatus.partialPayment⟩ : PayHeader).paid_amount := by
  norm_num [Sales.update_payment]

theorem payment_updates_monotone_capped_witness :
    ((([(60 : ℚ), 50].take 1).foldl Sales.update_payment
        ⟨100, 0, PaymentStatus.pending⟩).paid_amount ≤
      (([(60 : ℚ), 50].take 2).foldl Sales.update_payment
        ⟨100, 0, PaymentStatus.pending⟩).paid_amount) ∧
    (([(60 : ℚ), 50].take 2).foldl Sales.update_payment
        ⟨100, 0, PaymentStatus.pending⟩).paid_amount ≤ 100 := by
  have key := payment_updates_monotone_capped ⟨100, 0, PaymentStatus.pending⟩ [60, 50]
    (by norm_num)
    (by
      intro i hi
      simp only [List.mem_cons, List.not_mem_nil, or_false] at hi
      rcases hi with rfl | rfl <;> norm_num) 1
  exact ⟨key.1.1, key.1.2⟩

/-- Table with a single sale header (id 1, total 100, nothing paid) used to
instantiate the payment characterization. -/
def tblC7 : Nat → Option PayHeader :=
  fun i => if i = 1 then some ⟨100, 0, PaymentStatus.pending⟩ else none

/-- C7 (amended): recording a payment on an existing sale or purchase stores
paid_amount = min(total_amount, old paid + increment), and recomputes the
status with the paid branch taking precedence: paid iff old+inc reaches
total_amount (even when the capped new amount is 0, which happens when
total_amount ≤ 0), partial iff 0 < old+inc < total, pending iff old+inc ≤ 0
and old+inc < total; when the header is absent the call fails with
NotFoundError. -/
theorem update_payment_spec (tbl : Nat → Option PayHeader) (id : Nat) (inc : ℚ) :
    (tbl id = none →
      Sales.update_payment_api tbl id inc =
          Except.error (AppError.notFound "Sale not found") ∧
      Purchases.update_payment_api tbl id inc =
          Except.error (AppError.notFound "Purchase not found")) ∧
    (∀ h, tbl id = some h →
      Sales.update_payment_api tbl id inc =
          Except.ok (fun i => if i = id then some (Sales.update_payment h inc) else tbl i) ∧
      Purchases.update_payment_api tbl id inc =
          Except.ok (fun i => if i = id then some (Purchases.update_payment h inc) else tbl i) ∧
      (Sales.update_payment h inc).paid_amount = min h.total_amount (h.paid_amount + inc) ∧
      ((Sales.update_payment h inc).payment_status = PaymentStatus.paid ↔
        h.total_amount ≤ h.paid_amount + inc) ∧
      ((Sales.update_payment h inc).payment_status = PaymentStatus.partialPayment ↔
        (0 < h.paid_amount + inc ∧ h.paid_amount + inc < h.total_amount)) ∧
      ((Sales.update_payment h inc).payment_status = PaymentStatus.pending ↔
        (h.paid_amount + inc ≤ 0 ∧ h.paid_amount + inc < h.total_amount)) ∧
      Purchases.update_payment h inc = Sales.update_payment h inc) := by
  constructor
  · intro hnone
    constructor
    · simp [Sales.update_payment_api, hnone]
    · simp [Purchases.update_payment_api, hnone]
  · intro h hsome
    refine ⟨by simp [Sales.update_payment_api, hsome],
      by simp [Purchases.update_payment_api, hsome],
      update_payment_paid_eq_min h inc,
      update_payment_status_paid_iff h inc,
      update_payment_status_partial_iff h inc,
      update_payment_status_pending_iff h inc,
      by rw [purchases_update_payment_eq_sales]⟩

/-- C7 counterexample: on a header whose total_amount is 0 (a sale created
with an empty item list) and paid_amount 0, a payment of 0 leaves the new
paid amount at 0, yet the handler sets payment_status to paid, not pending
as the claim states for a new paid amount of 0. -/
theorem update_payment_spec_cex :
    (Sales.update_payment ⟨0, 0, PaymentStatus.pending⟩ 0).paid_amount = 0 ∧
    (Sales.update_payment ⟨0, 0, PaymentStatus.pending⟩ 0).payment_status =
      PaymentStatus.paid := by
  constructor <;> norm_num [Sales.update_payment]

theorem update_payment_spec_witness :
    (Sales.update_payment ⟨100, 0, PaymentStatus.pending⟩ 60).paid_amount =
        min 100 (0 + 60) ∧
    (Sales.update_payment ⟨100, 0, PaymentStatus.pending⟩ 60).payment_status =
        PaymentStatus.partialPayment ∧
    Sales.update_payment_api tblC7 2 60 =
        Except.error (AppError.notFound "Sale not found") := by
  have hs := (update_payment_spec tblC7 1 60).2 ⟨100, 0, PaymentStatus.pending⟩ rfl
  have hn := (update_payment_spec tblC7 2 60).1 rfl
  exact ⟨hs.2.2.1, (hs.2.2.2.2.1).mpr (by norm_num), hn.1⟩

/-- A sale or purchase line item as carried by the create request body and
by the sale_items/purchase_items rows (SaleItemBase/PurchaseItemBase in
app/models/models.py); quantity and prices are floats in the source,
modelled as rationals. -/
structure LineItem where
  product_id : Nat
  quantity : ℚ
  unit_price : ℚ
  total_price : ℚ
deriving DecidableEq, Repr

namespace Sales

/-- Stock effect of the item loop of create_sale (app/api/sales.py lines
157-169): for each item in order, UPDATE products SET stock_quantity =
GREATEST(0, stock_quantity - quantity) WHERE id = product_id. -/
def create_sale_stock (stock : Nat → ℚ) (items : List LineItem) : Nat → ℚ :=
  items.foldl
    (fun st it => fun pid =>
      if pid = it.product_id then max 0 (st it.product_id - it.quantity) else st pid)
    stock

/-- Stock effect of delete_sale (app/api/sales.py lines 219-231): for each
stored sale_items row, UPDATE products SET stock_quantity = stock_quantity +
quantity WHERE id = product_id (no clamping). -/
def delete_sale_stock (stock : Nat → ℚ) (items : List LineItem) : Nat → ℚ :=
  items.foldl
    (fun st it => fun pid =>
      if pid = it.product_id then st it.product_id + it.quantity else st pid)
    stock

end Sales

namespace Purchases

/-- Stock effect of the item loop of create_purchase (app/api/purchases.py
lines 153-165): per item, stock_quantity = stock_quantity + quantity. -/
def create_purchase_stock (stock : Nat → ℚ) (items : List LineItem) : Nat → ℚ :=
  items.foldl
    (fun st it => fun pid =>
      if pid = it.product_id then st it.product_id + it.quantity else st pid)
    stock

/-- Stock effect of delete_purchase (app/api/purchases.py lines 214-223):
per stored item, stock_quantity = GREATEST(0, stock_quantity - quantity). -/
def delete_purchase_stock (stock : Nat → ℚ) (items : List LineItem) : Nat → ℚ :=
  items.foldl
    (fun st it => fun pid =>
      if pid = it.product_id then max 0 (st it.product_id - it.quantity) else st pid)
    stock

end Purchases

theorem delete_purchase_stock_eq_create_sale :
    Purchases.delete_purchase_stock = Sales.create_sale_stock := rfl

theorem create_purchase_stock_eq_delete_sale :
    Purchases.create_purchase_stock = Sales.delete_sale_stock := rfl

/-- Total quantity that a list of line items carries for a given product. -/
def sumQty : List LineItem → Nat → ℚ
  | [], _ => 0
  | it :: rest, pid => (if pid = it.product_id then it.quantity else 0) + sumQty rest pid

theorem sumQty_nonneg (items : List LineItem) (pid : Nat)
    (hq : ∀ it ∈ items, 0 ≤ it.quantity) : 0 ≤ sumQty items pid := by
  induction items with
  | nil => exact le_rfl
  | cons it rest ih =>
      have h1 : 0 ≤ it.quantity := hq it (List.mem_cons_self it rest)
      have h2 : 0 ≤ sumQty rest pid := ih (fun x hx => hq x (List.mem_cons_of_mem it hx))
      dsimp only [sumQty]
      split
      · linarith
      · linarith

theorem delete_sale_stock_apply (stock : Nat → ℚ) (items : List LineItem) (pid : Nat) :
    Sales.delete_sale_stock stock items pid = stock pid + sumQty items pid := by
  induction items generalizing stock with
  | nil => simp [Sales.delete_sale_stock, sumQty]
  | cons it rest ih =>
      simp only [Sales.delete_sale_stock, List.foldl_cons] at ih ⊢
      rw [ih]
      dsimp only [sumQty]
      by_cases hpid : pid = it.product_id
      · subst hpid
        simp only [eq_self_iff_true, if_true]
        ring
      · simp only [if_neg hpid]
        ring

theorem create_sale_stock_apply (stock : Nat → ℚ) (items : List LineItem)
    (hq : ∀ it ∈ items, 0 ≤ it.quantity)
    (hs : ∀ pid, sumQty items pid ≤ stock pid) (pid : Nat) :
    Sales.create_sale_stock stock items pid = stock pid - sumQty items pid := by
  induction items generalizing stock with
  | nil => simp [Sales.create_sale_stock, sumQty]
  | cons it rest ih =>
      have hqit : 0 ≤ it.quantity := hq it (List.mem_cons_self it rest)
      have hqrest : ∀ x ∈ rest, 0 ≤ x.quantity :=
        fun x hx => hq x (List.mem_cons_of_mem it hx)
      -- the first UPDATE does not clamp: stock covers the whole sale
      have hcover : it.quantity ≤ stock it.product_id := by
        have := hs it.product_id
        have hrest0 : 0 ≤ sumQty rest it.product_id := sumQty_nonneg rest it.product_id hqrest
        dsimp only [sumQty] at this
        rw [if_pos rfl] at this
        linarith
      have hstep :
          (fun p => if p = it.product_id then max 0 (stock it.product_id - it.quantity)
            else stock p) =
          (fun p => if p = it.product_id then stock it.product_id - it.quantity
            else stock p) := by
        funext p
        by_cases hp : p = it.product_id
        · simp only [if_pos hp]
          exact max_eq_right (by linarith)
        · simp only [if_neg hp]
      have hsrest : ∀ p, sumQty rest p ≤
          (fun p => if p = it.product_id then stock it.product_id - it.quantity
            else stock p) p := by
        intro p
        by_cases hp : p = it.product_id
        · subst hp
          have hp2 := hs it.product_id
          dsimp only [sumQty] at hp2
          simp only [eq_self_iff_true, if_true] at hp2
          simp only [eq_self_iff_true, if_true]
          linarith
        · have hp2 := hs p
          dsimp only [sumQty] at hp2
          rw [if_neg hp] at hp2
          simp only [if_neg hp]
          linarith
      simp only [Sales.create_sale_stock, List.foldl_cons] at ih ⊢
      rw [hstep, ih _ hqrest hsrest]
      dsimp only [sumQty]
      by_cases hp : pid = it.product_id
      · subst hp
        simp only [eq_self_iff_true, if_true]
        ring
      · simp only [if_neg hp]
        ring

/-- C1 (amended): creating a sale and then deleting it restores every
product's stock exactly, provided the item quantities are non-negative and
every product's starting stock covers the total quantity the sale removes
(so the GREATEST(0, ...) clamp in create_sale never engages). The original
unconditional claim fails when stock is smaller than the quantity sold:
the clamped decrement loses the deficit and the unclamped restore returns
more than was removed; see the counterexample. -/
theorem sale_delete_restores_stock (stock : Nat → ℚ) (items : List LineItem)
    (hq : ∀ it ∈ items, 0 ≤ it.quantity)
    (hs : ∀ pid, sumQty items pid ≤ stock pid) (pid : Nat) :
    Sales.delete_sale_stock (Sales.create_sale_stock stock items) items pid = stock pid := by
  rw [delete_sale_stock_apply, create_sale_stock_apply stock items hq hs]
  ring

/-- C1 counterexample: product 1 starts with stock 3; a sale of quantity 5
clamps the stock at 0, and deleting the sale restores 5, not 3. -/
theorem sale_delete_restores_stock_cex :
    Sales.delete_sale_stock
        (Sales.create_sale_stock (fun _ => 3) [⟨1, 5, 10, 50⟩]) [⟨1, 5, 10, 50⟩] 1 = 5 ∧
    (5 : ℚ) ≠ 3 := by
  constructor
  · norm_num [Sales.delete_sale_stock, Sales.create_sale_stock]
  · norm_num

theorem sale_delete_restores_stock_witness :
    Sales.delete_sale_stock
        (Sales.create_sale_stock (fun _ => 8) [⟨1, 5, 10, 50⟩]) [⟨1, 5, 10, 50⟩] 1 = 8 := by
  have key := sale_delete_restores_stock (fun _ => 8) [⟨1, 5, 10, 50⟩]
    (by
      intro it hi
      simp only [List.mem_cons, List.not_mem_nil, or_false] at hi
      subst hi
      norm_num)
    (by
      intro pid
      dsimp only [sumQty]
      split <;> norm_num) 1
  exact key

/-- Persistent state touched by the sale/purchase handlers: the products
table (stock_quantity per product id) and, per sale/purchase id, the line
items recorded at creation (sale_items/purchase_items rows, which the
delete handlers read back to reverse the stock effect). -/
structure LedgerState where
  stock : Nat → ℚ
  sales : Nat → Option (List LineItem)
  purchases : Nat → Option (List LineItem)

/-- The four stock-mutating operations of app/api/sales.py and
app/api/purchases.py. Create operations carry the request items; delete
operations only carry the id and replay the stored items. -/
inductive LedgerOp where
  | createSale (sale_id : Nat) (items : List LineItem)
  | deleteSale (sale_id : Nat)
  | createPurchase (purchase_id : Nat) (items : List LineItem)
  | deletePurchase (purchase_id : Nat)

/-- One handler invocation as a state transformer. A delete on an absent id
raises NotFoundError and its transaction is not committed, so the state is
unchanged. -/
def applyOp (s : LedgerState) : LedgerOp → LedgerState
  | LedgerOp.createSale sale_id items =>
      { stock := Sales.create_sale_stock s.stock items,
        sales := fun i => if i = sale_id then some items else s.sales i,
        purchases := s.purchases }
  | LedgerOp.deleteSale sale_id =>
      match s.sales sale_id with
      | none => s
      | some items =>
          { stock := Sales.delete_sale_stock s.stock items,
            sales := fun i => if i = sale_id then none else s.sales i,
            purchases := s.purchases }
  | LedgerOp.createPurchase purchase_id items =>
      { stock := Purchases.create_purchase_stock s.stock items,
        sales := s.sales,
        purchases := fun i => if i = purchase_id then some items else s.purchases i }
  | LedgerOp.deletePurchase purchase_id =>
      match s.purchases purchase_id with
      | none => s
      | some items =>
          { stock := Purchases.delete_purchase_stock s.stock items,
            sales := s.sales,
            purchases := fun i => if i = purchase_id then none else s.purchases i }

/-- Left fold of applyOp over a list of handler invocations. -/
def applyOps (s : LedgerState) (ops : List LedgerOp) : LedgerState :=
  ops.foldl applyOp s

/-- Quantities carried by a create operation are non-negative; delete
operations carry none. -/
def opQuantitiesNonneg : LedgerOp → Prop
  | LedgerOp.createSale _ items => ∀ it ∈ items, 0 ≤ it.quantity
  | LedgerOp.createPurchase _ items => ∀ it ∈ items, 0 ≤ it.quantity
  | LedgerOp.deleteSale _ => True
  | LedgerOp.deletePurchase _ => True

theorem create_sale_stock_nonneg (stock : Nat → ℚ) (items : List LineItem)
    (h0 : ∀ pid, 0 ≤ stock pid) (pid : Nat) :
    0 ≤ Sales.create_sale_stock stock items pid := by
  induction items generalizing stock with
  | nil => exact h0 pid
  | cons it rest ih =>
      simp only [Sales.create_sale_stock, List.foldl_cons] at ih ⊢
      refine ih _ ?_ -- the clamped step keeps every product non-negative
      intro p
      by_cases hp : p = it.product_id
      · simp only [if_pos hp]
        exact le_max_left 0 _
      · simp only [if_neg hp]
        exact h0 p

theorem delete_sale_stock_nonneg (stock : Nat → ℚ) (items : List LineItem)
    (h0 : ∀ pid, 0 ≤ stock pid) (hq : ∀ it ∈ items, 0 ≤ it.quantity) (pid : Nat) :
    0 ≤ Sales.delete_sale_stock stock items pid := by
  induction items generalizing stock with
  | nil => exact h0 pid
  | cons it rest ih =>
      simp only [Sales.delete_sale_stock, List.foldl_cons] at ih ⊢
      have hqit : 0 ≤ it.quantity := hq it (List.mem_cons_self it rest)
      refine ih _ ?_ (fun x hx => hq x (List.mem_cons_of_mem it hx))
      intro p
      by_cases hp : p = it.product_id
      · simp only [if_pos hp]
        have := h0 it.product_id
        linarith
      · simp only [if_neg hp]
        exact h0 p

/-- Invariant carried through operation sequences: all stock is
non-negative and every stored sale item quantity is non-negative. -/
def LedgerInv (s : LedgerState) : Prop :=
  (∀ pid, 0 ≤ s.stock pid) ∧
  (∀ sale_id items, s.sales sale_id = some items → ∀ it ∈ items, 0 ≤ it.quantity)

theorem applyOp_preserves_inv (s : LedgerState) (op : LedgerOp)
    (hinv : LedgerInv s) (hop : opQuantitiesNonneg op) : LedgerInv (applyOp s op) := by
  obtain ⟨hstock, hsold⟩ := hinv
  cases op with
  | createSale sale_id items =>
      refine ⟨fun pid => create_sale_stock_nonneg s.stock items hstock pid, ?_⟩
      intro i its hits
      dsimp only [applyOp] at hits
      by_cases hi : i = sale_id
      · rw [if_pos hi] at hits
        cases hits
        exact hop
      · rw [if_neg hi] at hits
        exact hsold i its hits
  | deleteSale sale_id =>
      dsimp only [applyOp]
      cases hlook : s.sales sale_id with
      | none => exact ⟨hstock, hsold⟩
      | some items =>
          refine ⟨fun pid => delete_sale_stock_nonneg s.stock items hstock
            (hsold sale_id items hlook) pid, ?_⟩
          intro i its hits
          dsimp only at hits
          by_cases hi : i = sale_id
          · rw [if_pos hi] at hits
            cases hits
          · rw [if_neg hi] at hits
            exact hsold i its hits
  | createPurchase purchase_id items =>
      exact ⟨fun pid => delete_sale_stock_nonneg s.stock items hstock hop pid, hsold⟩
  | deletePurchase purchase_id =>
      dsimp only [applyOp]
      cases hlook : s.purchases purchase_id with
      | none => exact ⟨hstock, hsold⟩
      | some items =>
          exact ⟨fun pid => create_sale_stock_nonneg s.stock items hstock pid, hsold⟩

theorem applyOps_preserves_inv (s : LedgerState) (ops : List LedgerOp)
    (hinv : LedgerInv s) (hops : ∀ op ∈ ops, opQuantitiesNonneg op) :
    LedgerInv (applyOps s ops) := by
  induction ops generalizing s with
  | nil => exact hinv
  | cons op rest ih =>
      simp only [applyOps, List.foldl_cons] at ih ⊢
      exact ih (applyOp s op)
        (applyOp_preserves_inv s op hinv (hops op (List.mem_cons_self op rest)))
        (fun x hx => hops x (List.mem_cons_of_mem op hx))

/-- C4 (amended): starting from a state with all stock non-negative and no
stored sale carrying a negative quantity, any finite sequence of
sale-create, sale-delete, purchase-create and purchase-delete operations in
which every request item quantity is non-negative keeps stock_quantity of
every product non-negative after every prefix of the sequence. (The
original claim over arbitrary quantities fails: the handlers do not
validate quantities, and a purchase created with a negative quantity drives
stock below zero; see the counterexample.) -/
theorem ledger_stock_nonneg (s0 : LedgerState) (ops : List LedgerOp)
    (h0 : ∀ pid, 0 ≤ s0.stock pid)
    (hsold : ∀ sale_id items, s0.sales sale_id = some items → ∀ it ∈ items, 0 ≤ it.quantity)
    (hops : ∀ op ∈ ops, opQuantitiesNonneg op) (n : Nat) (pid : Nat) :
    0 ≤ (applyOps s0 (ops.take n)).stock pid :=
  (applyOps_preserves_inv s0 (ops.take n) ⟨h0, hsold⟩
    (fun op hop => hops op (List.take_subset n ops hop))).1 pid

/-- Initial ledger state for the concrete instances: every product has
stock 0 and no sale or purchase exists. -/
def emptyLedger : LedgerState :=
  { stock := fun _ => 0, sales := fun _ => none, purchases := fun _ => none }

/-- C4 counterexample: from stock 0, creating a purchase whose single item
has quantity -1 (the API performs no validation on quantity) leaves product
1 with stock -1 < 0 immediately after the operation. -/
theorem ledger_stock_nonneg_cex :
    (applyOps emptyLedger [LedgerOp.createPurchase 1 [⟨1, -1, 0, 0⟩]]).stock 1 < 0 := by
  norm_num [applyOps, applyOp, emptyLedger, Purchases.create_purchase_stock]

theorem ledger_stock_nonneg_witness :
    0 ≤ (applyOps emptyLedger
      (([LedgerOp.createPurchase 1 [⟨1, 2, 3, 6⟩],
         LedgerOp.createSale 2 [⟨1, 5, 4, 20⟩],
         LedgerOp.deleteSale 2]).take 2)).stock 1 := by
  have key := ledger_stock_nonneg emptyLedger
    [LedgerOp.createPurchase 1 [⟨1, 2, 3, 6⟩],
     LedgerOp.createSale 2 [⟨1, 5, 4, 20⟩],
     LedgerOp.deleteSale 2]
    (fun pid => le_rfl)
    (fun sale_id items h => by cases h)
    (by
      intro op hop
      simp only [List.mem_cons, List.not_mem_nil, or_false] at hop
      rcases hop with rfl | rfl | rfl <;>
        simp only [opQuantitiesNonneg] <;>
        intro it hi <;>
        simp only [List.mem_cons, List.not_mem_nil, or_false] at hi <;>
        subst hi <;> norm_num) 2 1
  exact key

namespace Products

/-- Stock computation of update_stock in app/api/products.py (lines
179-208): operation "add" stores current + quantity unclamped, operation
"subtract" stores max(0, current - quantity), any other operation string is
rejected with BadRequestError. The quantity query parameter is an
unconstrained float in the source. -/
def update_stock (current_stock : ℚ) (quantity : ℚ) (operation : String) :
    Except AppError ℚ :=
  if operation = "add" then Except.ok (current_stock + quantity)
  else if operation = "subtract" then Except.ok (max 0 (current_stock - quantity))
  else Except.error (AppError.badRequest "Operation must be add or subtract")

end Products

/-- C3 counterexample: the stock of a product is mutated outside the
sale/purchase handlers by the update-stock endpoint, and that endpoint sets
stock negative: with current stock 3, update_stock with operation add and
quantity -5 stores -2 < 0. -/
theorem update_stock_preserves_nonneg_cex :
    Products.update_stock 3 (-5) "add" = Except.ok (-2) ∧ ((-2 : ℚ) < 0) := by
  constructor
  · simp [Products.update_stock]
    norm_num
  · norm_num

/-- C3 (amended): stock is mutated by the products update-stock endpoint
(and the generic product update) in addition to the sale/purchase
create/delete handlers, so the only-sale/purchase part of the claim fails;
moreover update_stock with operation add and a negative quantity sets
stock_quantity negative (see the counterexample). What does hold: for a
non-negative current stock and a non-negative quantity, any successful
update_stock call returns a non-negative stock (subtract clamps at 0). -/
theorem update_stock_preserves_nonneg (current_stock quantity : ℚ) (operation : String)
    (hs : 0 ≤ current_stock) (hq : 0 ≤ quantity) (r : ℚ)
    (hr : Products.update_stock current_stock quantity operation = Except.ok r) :
    0 ≤ r := by
  dsimp only [Products.update_stock] at hr
  by_cases hadd : operation = "add"
  · rw [if_pos hadd] at hr
    cases hr
    linarith
  · rw [if_neg hadd] at hr
    by_cases hsub : operation = "subtract"
    · rw [if_pos hsub] at hr
      cases hr
      exact le_max_left 0 _
    · rw [if_neg hsub] at hr
      cases hr

theorem update_stock_preserves_nonneg_witness :
    Products.update_stock 3 5 "subtract" = Except.ok 0 ∧ (0 : ℚ) ≤ 0 := by
  have heq : Products.update_stock 3 5 "subtract" = Except.ok 0 := by
    simp [Products.update_stock]
    norm_num
  exact ⟨heq, update_stock_preserves_nonneg 3 5 "subtract"
    (by norm_num) (by norm_num) 0 heq⟩

/-- A debts table row (app/models/models.py DebtBase plus the bookkeeping
column updated_at written by the handlers); due_date is nullable and time
is modelled as integers. -/
structure DebtRow where
  customer_name : String
  amount : ℚ
  status : PaymentStatus
  due_date : Option Int
  updated_at : Int
deriving DecidableEq, Repr

namespace Debts

/-- Matches the WHERE clause due_date < current_date of mark_overdue_debts
(app/api/debts.py lines 246-255); a NULL due_date never matches. -/
def dueBefore (current_date : Int) (d : DebtRow) : Bool :=
  match d.due_date with
  | some dd => decide (dd < current_date)
  | none => false

/-- Row-level effect of the UPDATE in mark_overdue_debts (app/api/debts.py
lines 240-261): rows with due_date < current_date and status in
(pending, partial) get status overdue and a fresh updated_at; other rows
are untouched. -/
def markOverdueRow (current_date : Int) (now : Int) (d : DebtRow) : DebtRow :=
  if dueBefore current_date d ∧
      (d.status = PaymentStatus.pending ∨ d.status = PaymentStatus.partialPayment) then
    { d with status := PaymentStatus.overdue, updated_at := now }
  else d

/-- The whole sweep: the single UPDATE statement applied to every row of
the debts table. -/
def mark_overdue_debts (current_date : Int) (now : Int) (debts : List DebtRow) :
    List DebtRow :=
  debts.map (markOverdueRow current_date now)

end Debts

theorem markOverdueRow_idem (current_date now now2 : Int) (d : DebtRow) :
    Debts.markOverdueRow current_date now2 (Debts.markOverdueRow current_date now d) =
      Debts.markOverdueRow current_date now d := by
  dsimp only [Debts.markOverdueRow]
  split
  · rename_i hcond
    rw [if_neg]
    intro hcon
    rcases hcon.2 with h2 | h2 <;> cases h2
  · rfl

/-- C8 (amended): the sweep transitions exactly those debts whose status is
pending or partial and whose due_date lies in the past to overdue, and on
those rows it also refreshes updated_at (the claim that nothing but the
status field changes fails on updated_at; see the counterexample); all
other fields of every row and all non-matching rows are unchanged, and
running the sweep again on the result (at the same date, with any
timestamp) changes no debt. -/
theorem mark_overdue_spec (current_date now now2 : Int) (debts : List DebtRow)
    (d : DebtRow) :
    Debts.mark_overdue_debts current_date now2
        (Debts.mark_overdue_debts current_date now debts) =
      Debts.mark_overdue_debts current_date now debts ∧
    (Debts.markOverdueRow current_date now d).status =
      (if Debts.dueBefore current_date d ∧
          (d.status = PaymentStatus.pending ∨ d.status = PaymentStatus.partialPayment)
        then PaymentStatus.overdue else d.status) ∧
    (Debts.markOverdueRow current_date now d).updated_at =
      (if Debts.dueBefore current_date d ∧
          (d.status = PaymentStatus.pending ∨ d.status = PaymentStatus.partialPayment)
        then now else d.updated_at) ∧
    (Debts.markOverdueRow current_date now d).customer_name = d.customer_name ∧
    (Debts.markOverdueRow current_date now d).amount = d.amount ∧
    (Debts.markOverdueRow current_date now d).due_date = d.due_date := by
  refine ⟨?_, ?_, ?_, ?_, ?_, ?_⟩
  · dsimp only [Debts.mark_overdue_debts]
    rw [List.map_map]
    apply List.map_congr_left
    intro x _
    exact markOverdueRow_idem current_date now now2 x
  all_goals
    dsimp only [Debts.markOverdueRow]
    split <;> rfl

/-- C8 counterexample: a pending debt of 200 due in the past (due_date 5,
sweep date 10) is transitioned to overdue, but the sweep also rewrites
updated_at (0 becomes 1), so the sweep is not a pure status-field change. -/
theorem mark_overdue_spec_cex :
    Debts.mark_overdue_debts 10 1 [⟨"c", 200, PaymentStatus.pending, some 5, 0⟩] ≠
      [{ (⟨"c", 200, PaymentStatus.pending, some 5, 0⟩ : DebtRow) with
          status := PaymentStatus.overdue }] := by
  simp [Debts.mark_overdue_debts, Debts.markOverdueRow, Debts.dueBefore]

/-- Decoded token claims, per class TokenData in app/core/security.py:
sub (user id as string in the source; a missing or empty sub is modelled
as none and a parsed numeric sub as some uid), role, and an optional jti. -/
structure TokenData where
  sub : Option Nat
  role : String
  jti : Option String
deriving DecidableEq, Repr

/-- A refresh_tokens table row keyed by jti (see the INSERT statements in
app/api/auth.py): user_id, revoked flag and a nullable stored expiry,
with time modelled as integers (days). -/
structure RefreshSession where
  user_id : Nat
  revoked : Bool
  expires_at : Option Int
deriving DecidableEq, Repr

/-- A users table row as read by get_current_user: role and is_active
(the id is the map key). -/
structure UserRow where
  role : String
  is_active : Bool
deriving DecidableEq, Repr

/-- HTTPException outcomes raised by the auth code paths in
app/core/security.py and app/api/auth.py. -/
inductive AuthFailure where
  | invalidToken
  | invalidTokenJti
  | refreshSessionNotFound
  | refreshExpiredOrRevoked
  | tokenRevoked
  | userNotFound
  | userBlocked
deriving DecidableEq, Repr

/-- HTTP status code of each auth failure, per the status_code arguments
in the source: everything is 401 UNAUTHORIZED except the blocked-user
check, which raises 403 FORBIDDEN. -/
def statusCode : AuthFailure → Nat
  | AuthFailure.userBlocked => 403
  | _ => 401

namespace Auth

/-- Embeds refresh_token in app/api/auth.py (lines 94-125) from the point
where the presented refresh token has been decoded into td (a signature or
expiry failure in decode_token yields 401 before this logic runs): checks
jti presence, looks up the session row, rejects a missing row and a revoked
or expired one, then in one transaction revokes the old jti and inserts a
fresh unrevoked session under new_jti (generated by uuid4 in the source and
passed as a parameter here), returning the updated store and the new jti. -/
def refresh_token (store : String → Option RefreshSession) (td : TokenData)
    (now : Int) (new_jti : String) :
    Except AuthFailure ((String → Option RefreshSession) × String) :=
  match td.jti with
  | none => Except.error AuthFailure.invalidTokenJti
  | some jti =>
      match store jti with
      | none => Except.error AuthFailure.refreshSessionNotFound
      | some s =>
          if s.revoked ||
              (match s.expires_at with
                | some e => decide (e < now)
                | none => false) then
            Except.error AuthFailure.refreshExpiredOrRevoked
          else
            Except.ok
              (fun j =>
                if j = new_jti then
                  some { user_id := s.user_id, revoked := false, expires_at := some (now + 14) }
                else if j = jti then some { s with revoked := true }
                else store j,
               new_jti)

/-- Embeds logout in app/api/auth.py (lines 128-135): when the decoded
token carries a jti, the session row with that jti (if any) is marked
revoked; otherwise nothing changes. -/
def logout (store : String → Option RefreshSession) (td : TokenData) :
    String → Option RefreshSession :=
  match td.jti with
  | none => store
  | some jti =>
      fun j =>
        if j = jti then (store jti).map (fun s => { s with revoked := true })
        else store j

/-- Embeds get_current_user in app/core/security.py (lines 58-80) from the
point where the bearer token has been decoded into td (decode_token already
rejects bad signatures and expired tokens with 401): rejects a missing sub,
then, only when a jti is present and its session row exists and is revoked,
rejects with 401 Token revoked; finally requires the subject user to exist
and be active, returning (user id, role). -/
def get_current_user (sessions : String → Option RefreshSession)
    (users : Nat → Option UserRow) (td : TokenData) :
    Except AuthFailure (Nat × String) :=
  match td.sub with
  | none => Except.error AuthFailure.invalidToken
  | some uid =>
      let revokedHit :=
        match td.jti with
        | none => false
        | some jti =>
            match sessions jti with
            | none => false
            | some s => s.revoked
      if revokedHit then Except.error AuthFailure.tokenRevoked
      else
        match users uid with
        | none => Except.error AuthFailure.userNotFound
        | some u =>
            if u.is_active then Except.ok (uid, u.role)
            else Except.error AuthFailure.userBlocked

end Auth

/-- C5: rotating a refresh token is single-use. If a refresh call with
decoded claims td (jti = some jti) succeeds, producing store2, and the
freshly generated jti differs from the old one (uuid4 freshness), then the
old session is left revoked, a fresh unrevoked session exists under
new_jti, and presenting any token carrying the same old jti again fails
with the expired-or-revoked session error (a 401), at any later time and
for any fresh jti of the second call. -/
theorem refresh_rotation_single_use
    (store : String → Option RefreshSession) (td : TokenData)
    (jti new_jti : String) (now : Int)
    (store2 : String → Option RefreshSession) (tok : String)
    (hjti : td.jti = some jti) (hfresh : new_jti ≠ jti)
    (hok : Auth.refresh_token store td now new_jti = Except.ok (store2, tok)) :
    (∃ s, store2 jti = some s ∧ s.revoked = true) ∧
    (∃ s, store2 new_jti = some s ∧ s.revoked = false) ∧
    (∀ (td2 : TokenData) (now2 : Int) (new_jti2 : String), td2.jti = some jti →
      Auth.refresh_token store2 td2 now2 new_jti2 =
        Except.error AuthFailure.refreshExpiredOrRevoked) := by
  dsimp only [Auth.refresh_token] at hok
  rw [hjti] at hok
  dsimp only at hok
  cases hlook : store jti with
  | none => rw [hlook] at hok; cases hok
  | some s =>
      rw [hlook] at hok
      dsimp only at hok
      by_cases hrev : (s.revoked ||
          (match s.expires_at with
            | some e => decide (e < now)
            | none => false)) = true
      · rw [if_pos hrev] at hok
        cases hok
      · rw [if_neg hrev] at hok
        cases hok
        have hne : ¬jti = new_jti := fun h => hfresh h.symm
        refine ⟨⟨{ s with revoked := true }, ?_, rfl⟩,
          ⟨{ user_id := s.user_id, revoked := false, expires_at := some (now + 14) }, ?_, rfl⟩,
          ?_⟩
        · dsimp only
          rw [if_neg hne, if_pos rfl]
        · dsimp only
          rw [if_pos rfl]
        · intro td2 now2 new_jti2 hjti2
          dsimp only [Auth.refresh_token]
          rw [hjti2]
          dsimp only
          rw [if_neg hne, if_pos rfl]
          dsimp only
          simp

/-- Session store holding one live refresh session under jti A for user 7,
used to instantiate the rotation theorem. -/
def storeC5 : String → Option RefreshSession :=
  fun j => if j = "A" then some ⟨7, false, some 100⟩ else none

/-- Decoded refresh-token claims carrying jti A. -/
def tdC5 : TokenData := ⟨some 7, "admin", some "A"⟩

theorem refresh_rotation_single_use_witness :
    Auth.refresh_token
      (fun j =>
        if j = "B" then some { user_id := 7, revoked := false, expires_at := some (50 + 14) }
        else if j = "A" then some { user_id := 7, revoked := true, expires_at := some 100 }
        else storeC5 j)
      tdC5 60 "C" = Except.error AuthFailure.refreshExpiredOrRevoked := by
  have key := refresh_rotation_single_use storeC5 tdC5 "A" "B" 50 _ _ rfl
    (by decide) rfl
  exact key.2.2 tdC5 60 "C" rfl

/-- C6: a correctly signed, unexpired access token whose jti names a
revoked refresh session is rejected by get_current_user with the 401 Token
revoked error, regardless of the users table (the check runs before the
user lookup, so token expiry plays no part); in particular this holds for
the store produced by logging out the token, since logout marks the jti's
existing session revoked. -/
theorem revoked_session_rejected
    (sessions : String → Option RefreshSession) (users : Nat → Option UserRow)
    (td : TokenData) (uid : Nat) (jti : String) (s : RefreshSession)
    (hsub : td.sub = some uid) (hjti : td.jti = some jti)
    (hs : sessions jti = some s) :
    (s.revoked = true →
      Auth.get_current_user sessions users td = Except.error AuthFailure.tokenRevoked) ∧
    Auth.get_current_user (Auth.logout sessions td) users td =
      Except.error AuthFailure.tokenRevoked ∧
    statusCode AuthFailure.tokenRevoked = 401 := by
  refine ⟨?_, ?_, rfl⟩
  · intro hrev
    dsimp only [Auth.get_current_user]
    rw [hsub]
    dsimp only
    rw [hjti]
    dsimp only
    rw [hs]
    dsimp only
    rw [hrev]
    rfl
  · dsimp only [Auth.get_current_user, Auth.logout]
    rw [hsub]
    dsimp only
    rw [hjti]
    dsimp only
    rw [if_pos rfl, hs]
    rfl

/-- Session store with one live session under jti A, for the revocation
witness. -/
def sessionsC6 : String → Option RefreshSession :=
  fun j => if j = "A" then some ⟨7, false, some 100⟩ else none

/-- Users table with a single active admin user 7, shared by the auth
witnesses. -/
def usersC6 : Nat → Option UserRow :=
  fun i => if i = 7 then some ⟨"admin", true⟩ else none

/-- Access-token claims for user 7 carrying jti A. -/
def tdC6 : TokenData := ⟨some 7, "admin", some "A"⟩

theorem revoked_session_rejected_witness :
    Auth.get_current_user (Auth.logout sessionsC6 tdC6) usersC6 tdC6 =
      Except.error AuthFailure.tokenRevoked := by
  have key := revoked_session_rejected sessionsC6 usersC6 tdC6 7 "A"
    ⟨7, false, some 100⟩ rfl rfl rfl
  exact key.2.1

/-- C9: when the decoded access token carries no jti, get_current_user
performs no revocation lookup at all: for every session store (including
one in which every session is revoked) the call succeeds with the subject
user's id and role, provided only that the user exists and is active. -/
theorem missing_jti_skips_revocation
    (sessions : String → Option RefreshSession) (users : Nat → Option UserRow)
    (td : TokenData) (uid : Nat) (u : UserRow)
    (hjti : td.jti = none) (hsub : td.sub = some uid)
    (hu : users uid = some u) (hact : u.is_active = true) :
    Auth.get_current_user sessions users td = Except.ok (uid, u.role) := by
  dsimp only [Auth.get_current_user]
  rw [hsub]
  dsimp only
  rw [hjti]
  dsimp only
  rw [hu]
  dsimp only
  rw [hact]
  rfl

/-- Session store in which every jti maps to a revoked session, for the
no-jti witness. -/
def sessionsC9 : String → Option RefreshSession :=
  fun _ => some ⟨7, true, some 100⟩

/-- Access-token claims for user 7 with no jti claim. -/
def tdC9 : TokenData := ⟨some 7, "admin", none⟩

theorem missing_jti_skips_revocation_witness :
    Auth.get_current_user sessionsC9 usersC6 tdC9 = Except.ok (7, "admin") := by
  have key := missing_jti_skips_revocation sessionsC9 usersC6 tdC9 7
    ⟨"admin", true⟩ rfl rfl rfl rfl
  exact key

/-- Registration request body, per class RegisterRequest in
app/api/auth.py: username, optional email, password, optional full name
and an optional role field (which the handler never reads). -/
structure RegisterRequest where
  username : String
  email : Option String
  password : String
  full_name : Option String
  role : Option String
deriving DecidableEq, Repr

/-- A users table row as inserted by register: the INSERT sets username,
email, hashed_password, full_name and role; is_active comes from the
database default for the column, which is not part of this repository and
is taken to be true (it does not affect the role computation). -/
structure StoredUser where
  username : String
  email : Option String
  hashed_password : String
  full_name : Option String
  role : String
  is_active : Bool
deriving DecidableEq, Repr

namespace Auth

/-- Embeds register in app/api/auth.py (lines 40-57): counts the existing
users, assigns role admin exactly when the count is 0 and user otherwise,
hashes the password (get_password_hash is modelled as an uninterpreted
function parameter) and inserts the row, returning the created row and the
updated table. The payload role field is never consulted. -/
def register (hash : String → String) (users : List StoredUser)
    (payload : RegisterRequest) : StoredUser × List StoredUser :=
  let role := if users.length = 0 then "admin" else "user"
  let newUser : StoredUser :=
    { username := payload.username, email := payload.email,
      hashed_password := hash payload.password, full_name := payload.full_name,
      role := role, is_active := true }
  (newUser, users ++ [newUser])

end Auth

/-- C10: the role stored and returned by register depends only on the
count of existing users: two register requests against the same table that
differ only in the role field produce identical stored and returned roles,
that role is admin exactly when the users table is empty and user
otherwise, and the row appended to the table is the returned row. -/
theorem register_role_depends_only_on_count (hash : String → String)
    (users : List StoredUser) (p : RegisterRequest) (r : Option String) :
    (Auth.register hash users { p with role := r }).1.role =
      (Auth.register hash users p).1.role ∧
    (Auth.register hash users p).1.role =
      (if users.length = 0 then "admin" else "user") ∧
    (Auth.register hash users p).2 = users ++ [(Auth.register hash users p).1] := by
  refine ⟨rfl, rfl, rfl⟩
